import Mathlib

/-!
Verification of the tvmaze HTTP client (tvmaze.go) against its
natural-language specification.

The Go source is shallowly embedded: the pure data records become Lean
structures, the resolver loop of `FindShow` becomes a recursive function
over the candidate list, and the effectful pieces (`Go`, `NewClient`,
`GetEpisodes`) become explicit state-passing functions over a cache map,
a filesystem model and network / decode oracles.
-/

namespace Tvmaze

/-- Score fields are float64 in Go; they are pure pass-through data, never
inspected by any algorithm in the repository, so they are modelled by `Rat`
which has decidable equality. -/
abbrev Float64 := Rat

/-- Bytes of a response body or cache value (each entry 0..255; the bound is
irrelevant to every claim, so plain `Nat` is used). -/
abbrev Bytes := List Nat

/-- Country represents the country the show aired in. -/
structure Country where
  name : String
  code : String
  timeZone : String
deriving DecidableEq, Repr

/-- Network represents the tv network airing the show. -/
structure Network where
  id : Int
  name : String
  country : Country
deriving DecidableEq, Repr

/-- Link represents a uri link. -/
structure Link where
  href : String
deriving DecidableEq, Repr

/-- Links represents Episode links. -/
structure Links where
  self : Link
  previousEpisode : Link
deriving DecidableEq, Repr

/-- Image represents an image. -/
structure Image where
  medium : String
  original : String
deriving DecidableEq, Repr

/-- External represents a 3rd party tv api. -/
structure External where
  tvRage : Int
  theTVDB : Int
deriving DecidableEq, Repr

/-- Schedule represents a Show schedule. -/
structure Schedule where
  time : String
  days : List String
deriving DecidableEq, Repr

/-- Rating represents a tv show rating. -/
structure Rating where
  average : Float64
deriving DecidableEq, Repr

/-- Show represents a tv show. -/
structure Show where
  id : Int
  url : String
  name : String
  type : String
  language : String
  genres : List String
  status : String
  runtime : Int
  premiered : String
  schedule : Schedule
  rating : Rating
  weight : Int
  network : Network
  externals : External
  image : Image
  summary : String
  updated : Int
  links : Links
deriving DecidableEq, Repr

/-- Candidate represents a search candidate.  The Go field `Show` is written
`show'` because `show` is a Lean keyword. -/
structure Candidate where
  score : Float64
  show' : Show
deriving DecidableEq, Repr

/-- Episode represents a tv episode. -/
structure Episode where
  id : Int
  url : String
  name : String
  season : Int
  number : Int
  airDate : String
  airTime : String
  airStamp : String
  runtime : Int
  summary : String
  links : Links
deriving DecidableEq, Repr

/-- A show record with every field defaulted; used to build concrete test
candidates that differ only in the fields the resolver reads. -/
def mkShow (name countryCode : String) : Show :=
  { id := 0, url := "", name := name, type := "", language := "", genres := [],
    status := "", runtime := 0, premiered := "",
    schedule := { time := "", days := [] }, rating := { average := 0 },
    weight := 0,
    network := { id := 0, name := "",
                 country := { name := "", code := countryCode, timeZone := "" } },
    externals := { tvRage := 0, theTVDB := 0 },
    image := { medium := "", original := "" }, summary := "", updated := 0,
    links := { self := { href := "" }, previousEpisode := { href := "" } } }

/-- Go stdlib strings.ToLower, modelled character-wise over the string's
characters (Lean core `String.toLower` has the same character mapping but is
defined by well-founded recursion over byte positions, which the kernel cannot
evaluate; this structural form computes).  All names the repository compares
are ASCII, where `Char.toLower` agrees with Go's case mapping. -/
def strToLower (s : String) : String := String.mk (s.data.map Char.toLower)

/-- Go stdlib strings.HasPrefix: `strHasPrefix s pre` is true when `pre` is a
prefix of `s` (argument order as in Go). -/
def strHasPrefix (s pre : String) : Bool := pre.data.isPrefixOf s.data

/-- One iteration of the inner `for _, cand := range candidates` loop of
`FindShow` (tvmaze.go lines 71-86), at a fixed value of `retry`.  The branch
structure mirrors the Go source: when a region is configured and this is the
first iteration, only the region+prefix test runs; otherwise a
case-insensitive equality test runs and, on the second iteration only, a
case-sensitive prefix test as a further alternative in the same scan. -/
def scanCands (region showname : String) (retry : Nat) :
    List Candidate → Option Show
  | [] => none
  | cand :: rest =>
    if region ≠ "" ∧ retry < 1 then
      if region = cand.show'.network.country.code ∧
          strHasPrefix cand.show'.name showname = true then
        some cand.show'
      else
        scanCands region showname retry rest
    else
      if strToLower cand.show'.name = strToLower showname then
        some cand.show'
      else if retry > 0 ∧ strHasPrefix cand.show'.name showname = true then
        some cand.show'
      else
        scanCands region showname retry rest

/-- FindShow (tvmaze.go lines 63-89) after the candidates have been fetched:
the outer `for retry := 0; retry <= 1; retry++` loop runs the inner scan at
retry = 0 and, if that returned nothing, at retry = 1.  `none` models the
`errors.New("Failed to match show in tvmaze!")` return. -/
def findShow (region showname : String) (cands : List Candidate) : Option Show :=
  match scanCands region showname 0 cands with
  | some s => some s
  | none => scanCands region showname 1 cands

/-- The Boolean match condition applied by `scanCands` to a single show at a
given retry index. -/
def candMatch (region showname : String) (retry : Nat) (s : Show) : Bool :=
  if region ≠ "" ∧ retry < 1 then
    decide (region = s.network.country.code) && strHasPrefix s.name showname
  else
    decide (strToLower s.name = strToLower showname)
      || (decide (retry > 0) && strHasPrefix s.name showname)

/-- Acceptance by pass 1 of the spec (region set, country equals region, and
the query is a case-sensitive prefix of the candidate name). -/
def acceptedPass1 (region showname : String) (c : Candidate) : Bool :=
  decide (region ≠ "") && decide (region = c.show'.network.country.code)
    && strHasPrefix c.show'.name showname

/-- Acceptance by pass 2 of the spec (case-insensitive name equality, or the
query is a case-sensitive prefix of the candidate name). -/
def acceptedPass2 (showname : String) (c : Candidate) : Bool :=
  decide (strToLower c.show'.name = strToLower showname) || strHasPrefix c.show'.name showname

/-- The resolver as the spec's §4.3 describes it: pass 1 (region+prefix) when
region is set, then an equality-only scan, then a prefix-only scan.  Written
from the spec's words, to be compared with `findShow` from the source. -/
def findShowSpec (region showname : String) (cands : List Candidate) : Option Show :=
  let pass1 :=
    if region ≠ "" then
      cands.find? (fun c =>
        decide (region = c.show'.network.country.code) && strHasPrefix c.show'.name showname)
    else none
  let eqScan := cands.find? (fun c => decide (strToLower c.show'.name = strToLower showname))
  let preScan := cands.find? (fun c => strHasPrefix c.show'.name showname)
  (Option.orElse (Option.orElse pass1 (fun _ => eqScan)) (fun _ => preScan)).map
    (fun c => c.show')

theorem find?_cons_pos {α : Type} (p : α → Bool) (a : α) (l : List α)
    (h : p a = true) : (a :: l).find? p = some a := by
  rw [List.find?_cons, h]

theorem find?_cons_neg {α : Type} (p : α → Bool) (a : α) (l : List α)
    (h : p a = false) : (a :: l).find? p = l.find? p := by
  rw [List.find?_cons, h]

theorem scanCands_eq_find (region showname : String) (retry : Nat)
    (cands : List Candidate) :
    scanCands region showname retry cands =
      (cands.find? (fun c => candMatch region showname retry c.show')).map
        (fun c => c.show') := by
  induction cands with
  | nil => rfl
  | cons cand rest ih =>
    by_cases hg : region ≠ "" ∧ retry < 1
    · by_cases hm : region = cand.show'.network.country.code ∧
          strHasPrefix cand.show'.name showname = true
      · have hfc : candMatch region showname retry cand.show' = true := by
          simp only [candMatch]
          rw [if_pos hg]
          simp [hm.1, hm.2]
        rw [scanCands, if_pos hg, if_pos hm,
          find?_cons_pos (fun c => candMatch region showname retry c.show') cand rest hfc]
        rfl
      · have hfc : candMatch region showname retry cand.show' = false := by
          simp only [candMatch]
          rw [if_pos hg]
          rcases Decidable.not_and_iff_or_not.mp hm with h | h
          · simp [h]
          · simp [eq_false_of_ne_true h]
        rw [scanCands, if_pos hg, if_neg hm, ih,
          find?_cons_neg (fun c => candMatch region showname retry c.show') cand rest hfc]
    · by_cases he : strToLower cand.show'.name = strToLower showname
      · have hfc : candMatch region showname retry cand.show' = true := by
          simp only [candMatch]
          rw [if_neg hg]
          simp [he]
        rw [scanCands, if_neg hg, if_pos he,
          find?_cons_pos (fun c => candMatch region showname retry c.show') cand rest hfc]
        rfl
      · by_cases hp : retry > 0 ∧ strHasPrefix cand.show'.name showname = true
        · have hfc : candMatch region showname retry cand.show' = true := by
            simp only [candMatch]
            rw [if_neg hg]
            simp [he, hp.1, hp.2]
          rw [scanCands, if_neg hg, if_neg he, if_pos hp,
            find?_cons_pos (fun c => candMatch region showname retry c.show') cand rest hfc]
          rfl
        · have hfc : candMatch region showname retry cand.show' = false := by
            simp only [candMatch]
            rw [if_neg hg]
            rcases Decidable.not_and_iff_or_not.mp hp with h | h
            · simp [he, h]
            · simp [he, eq_false_of_ne_true h]
          rw [scanCands, if_neg hg, if_neg he, if_neg hp, ih,
            find?_cons_neg (fun c => candMatch region showname retry c.show') cand rest hfc]

theorem find?_ext {α : Type} (p q : α → Bool) (l : List α) (h : ∀ a, p a = q a) :
    l.find? p = l.find? q := by
  induction l with
  | nil => rfl
  | cons a l ih => rw [List.find?_cons, List.find?_cons, h a, ih]

theorem find?_or_left_none {α : Type} (p q : α → Bool) (l : List α)
    (h : l.find? p = none) :
    l.find? (fun a => p a || q a) = l.find? q := by
  induction l with
  | nil => rfl
  | cons a l ih =>
    have hpa : p a = false := by
      cases hpa : p a
      · rfl
      · rw [find?_cons_pos p a l hpa] at h
        simp at h
    have hrest : l.find? p = none := by
      rw [find?_cons_neg p a l hpa] at h
      exact h
    cases hqa : q a
    · rw [find?_cons_neg (fun a => p a || q a) a l (by simp [hpa, hqa]),
        find?_cons_neg q a l hqa]
      exact ih hrest
    · rw [find?_cons_pos (fun a => p a || q a) a l (by simp [hpa, hqa]),
        find?_cons_pos q a l hqa]

theorem findShow_eq_orElse (region showname : String) (cands : List Candidate) :
    findShow region showname cands =
      (Option.orElse (cands.find? (fun c => candMatch region showname 0 c.show'))
        (fun _ => cands.find? (fun c => candMatch region showname 1 c.show'))).map
        (fun c => c.show') := by
  unfold findShow
  rw [scanCands_eq_find region showname 0 cands,
    scanCands_eq_find region showname 1 cands]
  cases hc : cands.find? (fun c => candMatch region showname 0 c.show') with
  | none => simp [Option.orElse]
  | some a => simp [Option.orElse]

theorem orElse_map_eq_none {α β : Type} (A B : Option α) (g : α → β) :
    (Option.orElse A (fun _ => B)).map g = none ↔ A = none ∧ B = none := by
  cases A <;> cases B <;> simp [Option.orElse]

theorem orElse_map_eq_some {α β : Type} (A B : Option α) (g : α → β) (b : β)
    (h : (Option.orElse A (fun _ => B)).map g = some b) :
    (∃ a, A = some a ∧ g a = b) ∨ (A = none ∧ ∃ a, B = some a ∧ g a = b) := by
  cases A with
  | some a =>
    left
    refine ⟨a, rfl, ?_⟩
    simpa [Option.orElse] using h
  | none =>
    right
    cases B with
    | none => simp [Option.orElse] at h
    | some a =>
      refine ⟨rfl, a, rfl, ?_⟩
      simpa [Option.orElse] using h

theorem candMatch_pass_iff (region showname : String) (c : Candidate) :
    (candMatch region showname 0 c.show' = false ∧
        candMatch region showname 1 c.show' = false)
      ↔ (acceptedPass1 region showname c = false ∧
        acceptedPass2 showname c = false) := by
  by_cases hr : region = ""
  · subst hr
    simp [candMatch, acceptedPass1, acceptedPass2]
  · simp [candMatch, acceptedPass1, acceptedPass2, hr]

theorem candMatch_accept (region showname : String) (c : Candidate) (r : Nat)
    (h : candMatch region showname r c.show' = true) :
    acceptedPass1 region showname c = true ∨ acceptedPass2 showname c = true := by
  by_cases hg : region ≠ "" ∧ r < 1
  · left
    simp only [candMatch, if_pos hg] at h
    simp only [acceptedPass1]
    simp [hg.1, h]
  · right
    simp only [candMatch, if_neg hg] at h
    simp only [acceptedPass2]
    simp at h ⊢
    tauto

/-- Concrete candidate whose name only has the query "Lost Girl" as a
case-sensitive prefix (no case-insensitive equality). -/
def lostGirlPrefixOnly : Candidate :=
  { score := 0, show' := mkShow "Lost Girl: The Movie" "US" }

/-- Concrete candidate whose name equals the query "Lost Girl"
case-insensitively but is not a case-sensitive prefix match. -/
def lostGirlExact : Candidate := { score := 0, show' := mkShow "lost girl" "US" }

/-- C1 (counterexample): with region "CA" set, pass 1 matching nothing, the
code's second iteration is a single scan accepting equality or prefix, so it
returns the earlier prefix-only candidate even though a later candidate
matches the query exactly (case-insensitively) — against the claim, which
requires the equality scan to run to completion before any prefix match is
accepted.  `findShowSpec`, written from the spec's words, picks the later
exact-match candidate on the same input. -/
theorem findShow_pass2_counterexample :
    findShow "CA" "Lost Girl" [lostGirlPrefixOnly, lostGirlExact]
        = some lostGirlPrefixOnly.show'
      ∧ findShowSpec "CA" "Lost Girl" [lostGirlPrefixOnly, lostGirlExact]
        = some lostGirlExact.show'
      ∧ strToLower lostGirlExact.show'.name = strToLower "Lost Girl"
      ∧ lostGirlPrefixOnly.show' ≠ lostGirlExact.show' :=
  ⟨by decide, by decide, by decide, by decide⟩

/-- C1 (amended): when region is unset, the claim holds — the candidates are
scanned for a case-insensitive equality match first, and only if none exists
is a scan for a case-sensitive prefix match performed.  When region is set,
the iteration after pass 1 is a single scan accepting the first candidate
that matches by equality or by prefix, so a later exact match is NOT
preferred over an earlier prefix-only match. -/
theorem findShow_pass_structure (region showname : String) (cands : List Candidate) :
    findShow region showname cands =
      if region = "" then
        (Option.orElse
          (cands.find? (fun c => decide (strToLower c.show'.name = strToLower showname)))
          (fun _ => cands.find? (fun c => strHasPrefix c.show'.name showname))).map
          (fun c => c.show')
      else
        (Option.orElse
          (cands.find? (fun c =>
            decide (region = c.show'.network.country.code)
              && strHasPrefix c.show'.name showname))
          (fun _ => cands.find? (fun c =>
            decide (strToLower c.show'.name = strToLower showname)
              || strHasPrefix c.show'.name showname))).map
          (fun c => c.show') := by
  rw [findShow_eq_orElse]
  by_cases hr : region = ""
  · rw [if_pos hr]
    subst hr
    rw [find?_ext (fun c => candMatch "" showname 0 c.show')
        (fun c => decide (strToLower c.show'.name = strToLower showname)) cands
        (fun c => by simp [candMatch]),
      find?_ext (fun c => candMatch "" showname 1 c.show')
        (fun c => decide (strToLower c.show'.name = strToLower showname)
          || strHasPrefix c.show'.name showname) cands
        (fun c => by simp [candMatch])]
    cases hfe : cands.find?
        (fun c => decide (strToLower c.show'.name = strToLower showname)) with
    | some a => simp [Option.orElse]
    | none =>
      rw [find?_or_left_none (fun c => decide (strToLower c.show'.name = strToLower showname))
        (fun c => strHasPrefix c.show'.name showname) cands hfe]
  · rw [if_neg hr]
    rw [find?_ext (fun c => candMatch region showname 0 c.show')
        (fun c => decide (region = c.show'.network.country.code)
          && strHasPrefix c.show'.name showname) cands
        (fun c => by simp [candMatch, hr]),
      find?_ext (fun c => candMatch region showname 1 c.show')
        (fun c => decide (strToLower c.show'.name = strToLower showname)
          || strHasPrefix c.show'.name showname) cands
        (fun c => by simp [candMatch])]

/-- C2 (confirmed): when a region is set, the very first scan accepts the
first candidate (in rank order, as `List.find?` scans) whose network country
code equals the region and whose name has the query as a case-sensitive
prefix; that candidate's show is returned before any pass-2 rule is
considered. -/
theorem findShow_region_pass_first (region showname : String)
    (cands : List Candidate) (c : Candidate) (hr : region ≠ "")
    (hf : cands.find? (acceptedPass1 region showname) = some c) :
    findShow region showname cands = some c.show' := by
  rw [findShow_eq_orElse]
  rw [find?_ext (fun c => candMatch region showname 0 c.show')
    (acceptedPass1 region showname) cands
    (fun x => by simp [acceptedPass1, candMatch, hr])]
  rw [hf]
  simp [Option.orElse]

/-- Concrete CA-country candidate of the spec's region-priority example. -/
def lostGirlCA : Candidate := { score := 0, show' := mkShow "Lost Girl" "CA" }

/-- Concrete US-country candidate of the spec's region-priority example. -/
def lostGirlUS : Candidate := { score := 0, show' := mkShow "Lost Girl" "US" }

/-- Witness for C2 at the spec's example: region "CA", candidates
[Lost Girl/CA, Lost Girl/US], query "Lost Girl" — the CA candidate wins. -/
theorem findShow_region_pass_first_witness :
    findShow "CA" "Lost Girl" [lostGirlCA, lostGirlUS] = some lostGirlCA.show' :=
  findShow_region_pass_first "CA" "Lost Girl" [lostGirlCA, lostGirlUS] lostGirlCA
    (by decide) (by decide)

/-- C5 (confirmed): the resolver fails (returns `none`, modelling the error
return) exactly when no candidate is accepted by pass 1 or by pass 2; and
whenever it succeeds, the returned show belongs to a candidate accepted by
one of the two passes. -/
theorem findShow_notFound_iff (region showname : String) (cands : List Candidate) :
    (findShow region showname cands = none ↔
      ∀ c ∈ cands, acceptedPass1 region showname c = false ∧
        acceptedPass2 showname c = false)
    ∧ ∀ s, findShow region showname cands = some s →
        ∃ c ∈ cands, c.show' = s ∧
          (acceptedPass1 region showname c = true ∨
            acceptedPass2 showname c = true) := by
  constructor
  · rw [findShow_eq_orElse, orElse_map_eq_none]
    constructor
    · intro h c hc
      have h0 := List.find?_eq_none.mp h.1 c hc
      have h1 := List.find?_eq_none.mp h.2 c hc
      exact (candMatch_pass_iff region showname c).mp
        ⟨eq_false_of_ne_true h0, eq_false_of_ne_true h1⟩
    · intro h
      constructor
      · rw [List.find?_eq_none]
        intro c hc
        simp [((candMatch_pass_iff region showname c).mpr (h c hc)).1]
      · rw [List.find?_eq_none]
        intro c hc
        simp [((candMatch_pass_iff region showname c).mpr (h c hc)).2]
  · intro s hs
    rw [findShow_eq_orElse] at hs
    rcases orElse_map_eq_some _ _ _ _ hs with ⟨a, ha, hg⟩ | ⟨-, a, ha, hg⟩
    · have hp := List.find?_some ha
      exact ⟨a, List.mem_of_find?_eq_some ha, hg,
        candMatch_accept region showname a 0 hp⟩
    · have hp := List.find?_some ha
      exact ⟨a, List.mem_of_find?_eq_some ha, hg,
        candMatch_accept region showname a 1 hp⟩

/-- A value stored in the go-cache instance.  Go stores `interface{}` (an
untyped blob); `other` models any stored value that is not a byte slice, so
the `data.([]byte)` assertion at the end of `Go` is observable in the model. -/
inductive CacheVal
  | bytes (b : Bytes)
  | other
deriving DecidableEq, Repr

/-- The in-memory cache, restricted to its live (non-expired) entries keyed
by request URI: go-cache's Get reports only entries whose TTL has not
passed, and every claim about the fetch layer is per-call, so live entries
are modelled directly and expiry timestamps are dropped. -/
abbrev CacheMap := List (String × CacheVal)

/-- go-cache Get: the live entry for the key, if any. -/
def cacheGet (m : CacheMap) (k : String) : Option CacheVal :=
  (m.find? (fun e => decide (e.1 = k))).map (fun e => e.2)

/-- go-cache Set (the call in `Go` passes ttl 0, the store's default TTL):
inserts or overwrites the entry for the key. -/
def cacheSet (m : CacheMap) (k : String) (v : CacheVal) : CacheMap :=
  (k, v) :: m.filter (fun e => decide (e.1 ≠ k))

/-- Outcome of one network GET as seen by `Go`: the transport (`c.Do`) may
fail, or an HTTP response arrives with a status code and a body whose read
by ioutil.ReadAll either fails (`none`) or yields bytes. -/
inductive NetOutcome
  | transportErr
  | response (status : Nat) (bodyRead : Option Bytes)
deriving DecidableEq, Repr

/-- Errors returned by `Go` (tvmaze.go lines 141-174), one constructor per
`return nil, err` site.  `statusErr` carries the message built by
`errors.New(fmt.Sprintf("Request failed: %s", http.StatusText(code)))`. -/
inductive FetchError
  | newRequestErr
  | transportErr
  | statusErr (msg : String)
  | readErr
deriving DecidableEq, Repr

/-- Result of one `Go` call: bytes, an error, or a run-time panic of the
final `data.([]byte)` type assertion. -/
inductive GoResult
  | ok (b : Bytes)
  | err (e : FetchError)
  | panicked
deriving DecidableEq, Repr

/-- Full effect of one `Go` call: its return value, the cache afterwards,
and whether a network request was issued (`c.Do` reached). -/
structure GoOutput where
  result : GoResult
  cache : CacheMap
  networkCalled : Bool
deriving DecidableEq, Repr

/-- Go (tvmaze.go lines 141-174).  `stext` models the Go stdlib table
http.StatusText; `newReqFails` models failure of http.NewRequest (never true
in practice for a URI printed by url.Parse, but the source has the error
path so the model keeps it); `net` models the transport: what one GET of the
given URI produces.  The body mirrors the source: Get from the cache; when
the entry is missing or UseCache is false, build the request, do it, reject
any non-200 status, read the body, Set it into the cache with ttl 0 and
return it; otherwise return the cached value through the `data.([]byte)`
assertion. -/
def goFetch (stext : Nat → String) (newReqFails : String → Bool)
    (net : String → NetOutcome) (cache : CacheMap) (useCache : Bool)
    (uri : String) : GoOutput :=
  if !(cacheGet cache uri).isSome || !useCache then
    if newReqFails uri then
      { result := .err .newRequestErr, cache := cache, networkCalled := false }
    else
      match net uri with
      | .transportErr =>
        { result := .err .transportErr, cache := cache, networkCalled := true }
      | .response status bodyRead =>
        if status ≠ 200 then
          { result := .err (.statusErr ("Request failed: " ++ stext status)),
            cache := cache, networkCalled := true }
        else
          match bodyRead with
          | none =>
            { result := .err .readErr, cache := cache, networkCalled := true }
          | some body =>
            { result := .ok body, cache := cacheSet cache uri (.bytes body),
              networkCalled := true }
  else
    match cacheGet cache uri with
    | some (.bytes b) =>
      { result := .ok b, cache := cache, networkCalled := false }
    | _ => { result := .panicked, cache := cache, networkCalled := false }

/-- State of the cache-file path at client construction time: absent
(os.Stat errors), or present with contents that go-cache LoadFile either
decodes into a snapshot or rejects as malformed. -/
inductive CacheFileState
  | absent
  | malformed
  | wellFormed (snapshot : CacheMap)
deriving DecidableEq, Repr

/-- Client (tvmaze.go lines 20-28).  The embedded http.Client is represented
by its configured timeout; the go-cache pointer is held as the cache's
contents. -/
structure Client where
  debug : Bool
  baseURI : String
  region : String
  cache : CacheMap
  cacheFile : String
  useCache : Bool
  timeoutSeconds : Nat
deriving DecidableEq, Repr

/-- NewClient (tvmaze.go lines 31-51), over a filesystem modelled by the
state of the given path: a fresh cache is created; when os.Stat succeeds the
file is loaded into it and a load failure aborts construction with the error
(`none`); a missing file is skipped, leaving the cache empty.  Debug, Region
and UseCache are zero-valued, BaseURI defaults to the public host, and the
http.Client timeout is 180 seconds. -/
def newClient (fs : String → CacheFileState) (cachefile : String) :
    Option Client :=
  match fs cachefile with
  | .absent =>
    some { debug := false, baseURI := "http://api.tvmaze.com", region := "",
           cache := [], cacheFile := cachefile, useCache := false,
           timeoutSeconds := 180 }
  | .malformed => none
  | .wellFormed snapshot =>
    some { debug := false, baseURI := "http://api.tvmaze.com", region := "",
           cache := snapshot, cacheFile := cachefile, useCache := false,
           timeoutSeconds := 180 }

/-- The route built by GetEpisodes:
`fmt.Sprintf("/shows/%d/episodes", showID)`. -/
def episodesRoute (showID : Int) : String :=
  "/shows/" ++ toString showID ++ "/episodes"

/-- Errors surfaced by GetEpisodes: url.Parse failure, a fetch-layer error,
or a json.Unmarshal failure. -/
inductive EpisodesError
  | uriErr
  | fetchErr (e : FetchError)
  | decodeErr
deriving DecidableEq, Repr

/-- GetEpisodes (tvmaze.go lines 118-137), with explicit collaborators:
`parseOk` models url.Parse of baseURI+route succeeding (it does for any
well-formed base URI); `fetch` models one `Go` call; `decode` models
json.Unmarshal into []Episode, yielding the episode sequence exactly as the
wire body ordered it, or failing.  The second component of the output
records every URI fetched, in order, so that "exactly one fetch" is a
provable statement. -/
def getEpisodes (parseOk : String → Bool)
    (fetch : String → Except FetchError Bytes)
    (decode : Bytes → Option (List Episode)) (baseURI : String)
    (showID : Int) : Except EpisodesError (List Episode) × List String :=
  if parseOk (baseURI ++ episodesRoute showID) then
    match fetch (baseURI ++ episodesRoute showID) with
    | .error e => (.error (.fetchErr e), [baseURI ++ episodesRoute showID])
    | .ok jsondata =>
      match decode jsondata with
      | none => (.error .decodeErr, [baseURI ++ episodesRoute showID])
      | some episodes => (.ok episodes, [baseURI ++ episodesRoute showID])
  else
    (.error .uriErr, [])

/-- The HTTP request `Go` issues, as constructed at tvmaze.go line 148:
`http.NewRequest("GET", uri.String(), nil)` with no subsequent header
mutation anywhere in the repository.  The client is a parameter so that the
statement "no configured field contributes a header" is expressible. -/
structure HTTPRequest where
  method : String
  url : String
  headers : List (String × String)
deriving DecidableEq, Repr

/-- The request built by `Go` for a URI: a GET for the URI, with the empty
header list — no field of the client is consulted. -/
def buildRequest (_c : Client) (uri : String) : HTTPRequest :=
  { method := "GET", url := uri, headers := [] }

theorem cacheGet_cacheSet (m : CacheMap) (k : String) (v : CacheVal) :
    cacheGet (cacheSet m k v) k = some v := by
  simp [cacheGet, cacheSet, List.find?_cons]

theorem cacheGet_some_mem (m : CacheMap) (k : String) (v : CacheVal)
    (h : cacheGet m k = some v) : ∃ e ∈ m, e.2 = v := by
  unfold cacheGet at h
  cases hf : m.find? (fun e => decide (e.1 = k)) with
  | none => rw [hf] at h; simp at h
  | some e =>
    rw [hf] at h
    simp at h
    exact ⟨e, List.mem_of_find?_eq_some hf, h⟩

theorem goFetch_cases (stext : Nat → String) (newReqFails : String → Bool)
    (net : String → NetOutcome) (cache : CacheMap) (useCache : Bool)
    (uri : String) :
    (goFetch stext newReqFails net cache useCache uri).cache = cache
    ∨ ∃ body, net uri = .response 200 (some body)
        ∧ goFetch stext newReqFails net cache useCache uri =
          { result := .ok body, cache := cacheSet cache uri (.bytes body),
            networkCalled := true } := by
  unfold goFetch
  split
  · split
    · left; rfl
    · split
      · left; rfl
      · split
        · left; rfl
        · split
          · left; rfl
          · right
            refine ⟨_, ?_, rfl⟩
            simp_all
  · split
    · left; rfl
    · left; rfl

/-- C3 (confirmed): with UseCache true and a live cached byte entry for the
URI, Go returns the cached bytes with no network request and an unchanged
cache; with UseCache false a network request is always issued even though
the live entry exists (request construction never fails for parsed URIs,
kept as the hypothesis `newReqFails uri = false`), and on a successful 200
response the cache entry for the URI is overwritten with the fresh body. -/
theorem goFetch_cache_policy (stext : Nat → String) (newReqFails : String → Bool)
    (net : String → NetOutcome) (cache : CacheMap) (uri : String) (b : Bytes)
    (hhit : cacheGet cache uri = some (.bytes b)) :
    goFetch stext newReqFails net cache true uri =
        { result := .ok b, cache := cache, networkCalled := false }
      ∧ (newReqFails uri = false →
          (goFetch stext newReqFails net cache false uri).networkCalled = true)
      ∧ (∀ body, newReqFails uri = false →
          net uri = .response 200 (some body) →
          goFetch stext newReqFails net cache false uri =
              { result := .ok body, cache := cacheSet cache uri (.bytes body),
                networkCalled := true }
            ∧ cacheGet (goFetch stext newReqFails net cache false uri).cache uri
              = some (.bytes body)) := by
  refine ⟨?_, ?_, ?_⟩
  · unfold goFetch
    rw [hhit]
    simp
  · intro hq
    unfold goFetch
    rw [hq]
    rw [if_pos (show (!(cacheGet cache uri).isSome || !false) = true by simp),
      if_neg (show ¬(false = true) by simp)]
    split
    · rfl
    · split
      · rfl
      · split
        · rfl
        · rfl
  · intro body hq hn
    have hgo : goFetch stext newReqFails net cache false uri =
        { result := .ok body, cache := cacheSet cache uri (.bytes body),
          networkCalled := true } := by
      unfold goFetch
      rw [hq, hn]
      rw [if_pos (show (!(cacheGet cache uri).isSome || !false) = true by simp)]
      rfl
    exact ⟨hgo, by rw [hgo]; exact cacheGet_cacheSet cache uri (.bytes body)⟩

/-- Concrete cache holding one live byte entry for the URI "u". -/
def cacheW : CacheMap := [("u", CacheVal.bytes [1, 2])]

/-- Witness for C3: on the concrete one-entry cache, a cache hit with
UseCache true returns the stored bytes without network access, and with
UseCache false the network is called. -/
theorem goFetch_cache_policy_witness :
    goFetch (fun _ => "") (fun _ => false)
        (fun _ => .response 200 (some [9])) cacheW true "u" =
      { result := .ok [1, 2], cache := cacheW, networkCalled := false } :=
  (goFetch_cache_policy (fun _ => "") (fun _ => false)
    (fun _ => .response 200 (some [9])) cacheW "u" [1, 2] (by decide)).1

/-- C4 (confirmed): whenever the network path is taken (UseCache false or no
live cache entry) and the response status is not 200, Go fails with the
"Request failed" error carrying http.StatusText of that code, returns no
bytes, and leaves the cache unchanged. -/
theorem goFetch_non200 (stext : Nat → String) (newReqFails : String → Bool)
    (net : String → NetOutcome) (cache : CacheMap) (useCache : Bool)
    (uri : String) (status : Nat) (bodyRead : Option Bytes)
    (hpath : useCache = false ∨ cacheGet cache uri = none)
    (hreq : newReqFails uri = false)
    (hnet : net uri = .response status bodyRead)
    (hstatus : status ≠ 200) :
    goFetch stext newReqFails net cache useCache uri =
      { result := .err (.statusErr ("Request failed: " ++ stext status)),
        cache := cache, networkCalled := true } := by
  have hA : (!(cacheGet cache uri).isSome || !useCache) = true := by
    rcases hpath with h | h
    · rw [h]; simp
    · rw [h]; simp
  unfold goFetch
  rw [if_pos hA, hreq, hnet]
  simp [hstatus]

/-- Witness for C4: a 404 response (with http.StatusText modelled on that
code) yields the "Request failed: Not Found" error, no bytes, and the same
(empty) cache. -/
theorem goFetch_non200_witness :
    goFetch (fun code => if code = 404 then "Not Found" else "")
        (fun _ => false) (fun _ => .response 404 none) [] true "u" =
      { result := .err (.statusErr "Request failed: Not Found"), cache := [],
        networkCalled := true } :=
  goFetch_non200 (fun code => if code = 404 then "Not Found" else "")
    (fun _ => false) (fun _ => .response 404 none) [] true "u" 404 none
    (Or.inr (by decide)) rfl rfl (by decide)

/-- C9 (confirmed): whenever Go returns an error — request construction
failure, transport failure, non-200 status, or body-read failure — the
cache afterwards is exactly the cache before the call; only the fully
successful path writes it. -/
theorem goFetch_error_preserves_cache (stext : Nat → String)
    (newReqFails : String → Bool) (net : String → NetOutcome)
    (cache : CacheMap) (useCache : Bool) (uri : String) (e : FetchError)
    (h : (goFetch stext newReqFails net cache useCache uri).result = .err e) :
    (goFetch stext newReqFails net cache useCache uri).cache = cache := by
  rcases goFetch_cases stext newReqFails net cache useCache uri with
    hc | ⟨body, -, hb⟩
  · exact hc
  · rw [hb] at h
    simp at h

/-- Witness for C9: a concrete transport failure leaves the one-entry cache
exactly as it was. -/
theorem goFetch_error_preserves_cache_witness :
    (goFetch (fun _ => "") (fun _ => false) (fun _ => .transportErr) cacheW
      false "u").cache = cacheW :=
  goFetch_error_preserves_cache (fun _ => "") (fun _ => false)
    (fun _ => .transportErr) cacheW false "u" .transportErr (by decide)

/-- C10 (confirmed): every value Go itself stores into the cache is a byte
entry, so on any cache whose entries are all byte entries — as in every
execution where only Go wrote them — the final `data.([]byte)` type
assertion succeeds: the call does not panic, and the property is preserved
for the next call. -/
theorem goFetch_no_panic (stext : Nat → String) (newReqFails : String → Bool)
    (net : String → NetOutcome) (cache : CacheMap) (useCache : Bool)
    (uri : String) (hbytes : ∀ e ∈ cache, e.2 ≠ CacheVal.other) :
    (goFetch stext newReqFails net cache useCache uri).result ≠ .panicked
    ∧ ∀ e ∈ (goFetch stext newReqFails net cache useCache uri).cache,
        e.2 ≠ CacheVal.other := by
  by_cases hA : (!(cacheGet cache uri).isSome || !useCache) = true
  · unfold goFetch
    rw [if_pos hA]
    split
    · exact ⟨by simp, hbytes⟩
    · split
      · exact ⟨by simp, hbytes⟩
      · split
        · exact ⟨by simp, hbytes⟩
        · split
          · exact ⟨by simp, hbytes⟩
          · refine ⟨by simp, ?_⟩
            intro e he
            simp only [cacheSet] at he
            rcases List.mem_cons.mp he with he | he
            · rw [he]
              simp
            · exact hbytes e (List.mem_of_mem_filter he)
  · have hsome : ∃ v, cacheGet cache uri = some v := by
      cases hv : cacheGet cache uri
      · rw [hv] at hA; simp at hA
      · exact ⟨_, rfl⟩
    obtain ⟨v, hv⟩ := hsome
    obtain ⟨e, hmem, he⟩ := cacheGet_some_mem cache uri v hv
    have hvo : v ≠ CacheVal.other := by rw [← he]; exact hbytes e hmem
    obtain ⟨b, rfl⟩ : ∃ b, v = CacheVal.bytes b := by
      cases v
      · exact ⟨_, rfl⟩
      · exact absurd rfl hvo
    unfold goFetch
    rw [if_neg hA, hv]
    exact ⟨by simp, hbytes⟩

/-- Witness for C10: on the concrete all-byte cache, a cache hit does not
panic and the cache keeps only byte entries. -/
theorem goFetch_no_panic_witness :
    (goFetch (fun _ => "") (fun _ => false)
        (fun _ => .response 200 (some [9])) cacheW true "u").result
        ≠ GoResult.panicked
    ∧ ∀ e ∈ (goFetch (fun _ => "") (fun _ => false)
        (fun _ => .response 200 (some [9])) cacheW true "u").cache,
        e.2 ≠ CacheVal.other :=
  goFetch_no_panic (fun _ => "") (fun _ => false)
    (fun _ => .response 200 (some [9])) cacheW true "u" (by decide)

/-- C6 (confirmed): NewClient on a missing cache-file path succeeds and the
client's cache starts empty; NewClient on an existing but malformed cache
file fails with the load error and returns no client. -/
theorem newClient_file_handling (fs : String → CacheFileState)
    (path : String) :
    (fs path = .absent →
      ∃ c, newClient fs path = some c ∧ c.cache = [])
    ∧ (fs path = .malformed → newClient fs path = none) := by
  constructor
  · intro h
    unfold newClient
    rw [h]
    exact ⟨_, rfl, rfl⟩
  · intro h
    unfold newClient
    rw [h]

/-- Concrete filesystem for the C6 witness: "absent.json" is missing and
"corrupt.json" holds malformed content. -/
def fsW : String → CacheFileState :=
  fun p => if p = "absent.json" then .absent else .malformed

/-- Witness for C6 at the concrete filesystem: construction succeeds with an
empty cache on the missing path and fails on the corrupt one. -/
theorem newClient_file_handling_witness :
    (∃ c, newClient fsW "absent.json" = some c ∧ c.cache = [])
    ∧ newClient fsW "corrupt.json" = none :=
  ⟨(newClient_file_handling fsW "absent.json").1 (by decide),
    (newClient_file_handling fsW "corrupt.json").2 (by decide)⟩

/-- C7 (confirmed): with a parsable URI (url.Parse never fails on a
well-formed base), the episode listing fetches exactly once, against
{base}/shows/{id}/episodes; on fetch success with a decodable body it
returns the decoded sequence unchanged — the service's order is preserved
with no re-sorting; on an undecodable body it fails with the decode error
and returns no episode list. -/
theorem getEpisodes_behavior (parseOk : String → Bool)
    (fetch : String → Except FetchError Bytes)
    (decode : Bytes → Option (List Episode)) (baseURI : String) (showID : Int)
    (hp : parseOk (baseURI ++ episodesRoute showID) = true) :
    (getEpisodes parseOk fetch decode baseURI showID).2 =
        [baseURI ++ episodesRoute showID]
      ∧ (∀ body eps, fetch (baseURI ++ episodesRoute showID) = .ok body →
          decode body = some eps →
          (getEpisodes parseOk fetch decode baseURI showID).1 = .ok eps)
      ∧ (∀ body, fetch (baseURI ++ episodesRoute showID) = .ok body →
          decode body = none →
          (getEpisodes parseOk fetch decode baseURI showID).1 =
            .error .decodeErr) := by
  refine ⟨?_, ?_, ?_⟩
  · unfold getEpisodes
    rw [if_pos hp]
    cases hf : fetch (baseURI ++ episodesRoute showID) with
    | error e => rfl
    | ok jsondata =>
      cases hd : decode jsondata with
      | none => simp [hd]
      | some episodes => simp [hd]
  · intro body eps hf hd
    unfold getEpisodes
    rw [if_pos hp, hf]
    simp [hd]
  · intro body hf hd
    unfold getEpisodes
    rw [if_pos hp, hf]
    simp [hd]

/-- A concrete episode of season 2 used by the C7 witness. -/
def epS2 : Episode :=
  { id := 2, url := "", name := "b", season := 2, number := 1, airDate := "",
    airTime := "", airStamp := "", runtime := 30, summary := "",
    links := { self := { href := "" }, previousEpisode := { href := "" } } }

/-- A concrete episode of season 1 used by the C7 witness; it is listed
after the season-2 episode to exhibit that the order is not re-sorted. -/
def epS1 : Episode :=
  { id := 1, url := "", name := "a", season := 1, number := 1, airDate := "",
    airTime := "", airStamp := "", runtime := 30, summary := "",
    links := { self := { href := "" }, previousEpisode := { href := "" } } }

/-- Witness for C7: for show id 82, exactly one fetch is made against
{base}/shows/82/episodes, and the decoded sequence [season 2, season 1] is
returned in exactly that (non-sorted) order. -/
theorem getEpisodes_behavior_witness :
    (getEpisodes (fun _ => true) (fun _ => .ok [7])
        (fun b => if b = [7] then some [epS2, epS1] else none)
        "http://api.tvmaze.com" 82).2 =
      ["http://api.tvmaze.com/shows/82/episodes"]
    ∧ (getEpisodes (fun _ => true) (fun _ => .ok [7])
        (fun b => if b = [7] then some [epS2, epS1] else none)
        "http://api.tvmaze.com" 82).1 = .ok [epS2, epS1] := by
  have h := getEpisodes_behavior (fun _ => true) (fun _ => .ok [7])
    (fun b => if b = [7] then some [epS2, epS1] else none)
    "http://api.tvmaze.com" 82 (by decide)
  exact ⟨h.1, h.2.1 [7] [epS2, epS1] rfl (by decide)⟩

/-- The Fringe candidate of the spec's no-match example. -/
def fringeCand : Candidate := { score := 0, show' := mkShow "Fringe" "US" }

/-- Witness for C5 at the spec's example: query "NoSuchShow" against the
single Fringe candidate fails with NotFound (none), no candidate being
accepted by either pass. -/
theorem findShow_notFound_iff_witness :
    findShow "" "NoSuchShow" [fringeCand] = none :=
  ((findShow_notFound_iff "" "NoSuchShow" [fringeCand]).1).mpr (by decide)

/-- A fully configured concrete client for the C8 counterexample. -/
def clientW : Client :=
  { debug := true, baseURI := "http://api.tvmaze.com", region := "US",
    cache := cacheW, cacheFile := "cache.json", useCache := true,
    timeoutSeconds := 180 }

/-- C8 (counterexample): the repository offers no header configuration — the
request Go issues for a fully configured concrete client carries an empty
header list, so no identifying header is (or can be) attached. -/
theorem buildRequest_no_header_counterexample :
    (buildRequest clientW "http://api.tvmaze.com/search/shows?q=x").headers
      = [] := rfl

/-- C8 (amended): the client has no header configuration at all: for every
client value and URI, the request issued by Go is a GET for that URI with
the empty header list; no field of the client contributes a header. -/
theorem buildRequest_no_header (c : Client) (uri : String) :
    buildRequest c uri = { method := "GET", url := uri, headers := [] } := rfl

end Tvmaze
